import Mathlib

/-!
Verification of the kittenExport core transforms against their
natural-language specification.  The definitions below are shallow
embeddings of the Python source:

  * `sanitize_filename`          — src/utils.py, `sanitize_filename`
  * `thruster_exhaust_direction` — src/thruster.py, `_thruster_dict_to_xml_element`
  * `engine_exhaust_direction`   — src/engine.py, `_engine_dict_to_xml_element`
  * `combine_location` and `thruster_location_element` — src/thruster.py
  * `engine_thrust_n`            — src/engine.py
  * `controlMapCSV`              — src/thruster.py (ControlMap serialization)
  * `elementToDict`, `parse_meta_string`, `meta_dict_to_xml_str` — src/utils.py
  * `meshExportInfo`             — src/export.py (unique mesh file naming)

Python floats are modelled as real numbers; Python `None`-or-absent
dictionary entries are modelled with `Option`; exceptions are modelled
with `Option` result types.  The Python standard-library parsers
(`float`, `int`, `json.loads`, `xml.etree.ElementTree.fromstring`) are
external to the repository and enter as function parameters.
-/

namespace KittenExport

/-! ### Name sanitizer (src/utils.py, `sanitize_filename`) -/

/-- Whitelist `[A-Za-z0-9._-]` of the regex in `sanitize_filename`. -/
def isAllowedChar (c : Char) : Bool :=
  (('A' ≤ c && c ≤ 'Z') || ('a' ≤ c && c ≤ 'z') || ('0' ≤ c && c ≤ '9')
    || c == '.' || c == '_' || c == '-')

/-- `cleaned` of `sanitize_filename`: every character outside the
whitelist replaced by an underscore (the `re.sub` call). -/
def sanitizeMap (cs : List Char) : List Char :=
  cs.map (fun c => if isAllowedChar c then c else '_')

/-- `cleaned.lstrip(".")`: leading dots stripped. -/
def sanitizeStrip (cs : List Char) : List Char :=
  (sanitizeMap cs).dropWhile (fun c => c == '.')

/-- The `unnamed` fallback when stripping emptied the name. -/
def sanitizeBase (cs : List Char) : List Char :=
  if sanitizeStrip cs = [] then "unnamed".toList else sanitizeStrip cs

/-- List-level body of `sanitize_filename`: substitution, dot stripping,
fallback, truncation to 128 characters, in the order of the code. -/
def sanitizeChars (cs : List Char) : List Char :=
  (sanitizeBase cs).take 128

/-- `sanitize_filename` from src/utils.py.  An empty string (Python falsy
`name`, covering both `""` and `None`) maps to `"unnamed"`. -/
def sanitize_filename (name : String) : String :=
  if name = "" then "unnamed" else String.mk (sanitizeChars name.toList)

/-! ### Geometry (src/thruster.py and src/engine.py) -/

/-- Euler-to-direction computation in `_thruster_dict_to_xml_element`
(src/thruster.py lines 46–64).  The outer `Option` is the presence of the
`rotation` key (absent defaults to `[0.0, 0.0, 0.0]`), the inner `Option`
is Python truthiness of the stored value (`None`/empty list is falsy and
takes the `else` branch with the literal default `[1.0, 0.0, 0.0]`). -/
noncomputable def thruster_exhaust_direction
    (rotation : Option (Option (ℝ × ℝ × ℝ))) : ℝ × ℝ × ℝ :=
  match rotation.getD (some (0, 0, 0)) with
  | some (_, ry, rz) => (Real.cos ry * Real.cos rz, Real.cos ry * Real.sin rz, Real.sin ry)
  | none => (1, 0, 0)

/-- The identical computation duplicated in `_engine_dict_to_xml_element`
(src/engine.py lines 37–53). -/
noncomputable def engine_exhaust_direction
    (rotation : Option (Option (ℝ × ℝ × ℝ))) : ℝ × ℝ × ℝ :=
  match rotation.getD (some (0, 0, 0)) with
  | some (_, ry, rz) => (Real.cos ry * Real.cos rz, Real.cos ry * Real.sin rz, Real.sin ry)
  | none => (1, 0, 0)

/-- `_round_coordinate` (src/utils.py): Python `round(float(v), p)`,
idealized over the reals with round-half-to-even tie behaviour. -/
noncomputable def round_coordinate (x : ℝ) (p : ℕ) : ℝ :=
  let y := x * 10 ^ p
  (if Int.fract y = 1 / 2 then
      (if Even ⌊y⌋ then (⌊y⌋ : ℝ) else (⌊y⌋ : ℝ) + 1)
    else (round y : ℝ)) / 10 ^ p

/-- Componentwise `_round_coordinate` over a 3-vector
(`[_round_coordinate(v, decimal_places) for v in final_loc]`). -/
noncomputable def roundV3 (p : ℕ) (v : ℝ × ℝ × ℝ) : ℝ × ℝ × ℝ :=
  (round_coordinate v.1 p, round_coordinate v.2.1 p, round_coordinate v.2.2 p)

/-- The `final_loc` computation of `_thruster_dict_to_xml_element`
(src/thruster.py lines 31–38): world location plus fx offset when both are
truthy, otherwise `loc` unchanged.  Outer `Option` = key presence (absent
keys default to `[0.0, 0.0, 0.0]`), inner `Option` = Python truthiness of
the stored value. -/
def combine_location (loc? fx? : Option (Option (ℝ × ℝ × ℝ))) :
    Option (ℝ × ℝ × ℝ) :=
  let loc := loc?.getD (some (0, 0, 0))
  let fx := fx?.getD (some (0, 0, 0))
  match loc, fx with
  | some l, some f => some (l.1 + f.1, l.2.1 + f.2.1, l.2.2 + f.2.2)
  | _, _ => loc

/-- The serialized `Location` value of `_thruster_dict_to_xml_element`
(src/thruster.py lines 31–42), exactly as in the code: the sum is built
first, then each component is rounded (`none` = no `Location` element). -/
noncomputable def thruster_location_element
    (loc? fx? : Option (Option (ℝ × ℝ × ℝ))) (p : ℕ) : Option (ℝ × ℝ × ℝ) :=
  let loc := loc?.getD (some (0, 0, 0))
  let fx := fx?.getD (some (0, 0, 0))
  let finalLoc : Option (ℝ × ℝ × ℝ) :=
    match loc, fx with
    | some l, some f => some (l.1 + f.1, l.2.1 + f.2.1, l.2.2 + f.2.2)
    | _, _ => loc
  finalLoc.map (roundV3 p)

/-- `Thrust` attribute value of `_engine_dict_to_xml_element`
(src/engine.py lines 59–62): `engine_data.get(thrust_kn, 650.0) * 1000.0`. -/
def engine_thrust_n (kn? : Option ℝ) : ℝ :=
  kn?.getD 650 * 1000

/-! ### ControlMap serialization (src/thruster.py lines 70–89) -/

/-- `trans_labels` of `_thruster_dict_to_xml_element`. -/
def transLabels : List String :=
  ["TranslateForward", "TranslateBackward", "TranslateLeft", "TranslateRight",
   "TranslateUp", "TranslateDown"]

/-- `rot_labels` of `_thruster_dict_to_xml_element`. -/
def rotLabels : List String :=
  ["PitchUp", "PitchDown", "RollLeft", "RollRight", "YawLeft", "YawRight"]

/-- The `for i, enabled in enumerate(mask)` loop of
`_thruster_dict_to_xml_element`, carrying the running index `i`: a label is
appended only when `enabled` and `i < len(labels)` (the out-of-range lookup
`labels[i]?` is `none` exactly when `i ≥ len(labels)`). -/
def collectAux (labels : List String) : List Bool → ℕ → List String
  | [], _ => []
  | b :: bs, i => (if b then (labels[i]?).toList else []) ++ collectAux labels bs (i + 1)

/-- `csv_parts` of `_thruster_dict_to_xml_element`: enabled translation
labels then enabled rotation labels.  (The `if trans_map:` guard in the
code skips falsy masks, which produces the same parts as looping over an
empty list.) -/
def controlMapParts (tm rm : List Bool) : List String :=
  collectAux transLabels tm 0 ++ collectAux rotLabels rm 0

/-- The ControlMap `CSV` attribute value:
`','.join(csv_parts) if csv_parts else ''` (the join of an empty list is
also the empty string). -/
def controlMapCSV (tm rm : List Bool) : String :=
  String.intercalate "," (controlMapParts tm rm)

/-- Label list the spec describes: the labels of the `true` entries in
positional order, obtained by zipping a mask with the fixed label list. -/
def trueLabels (mask : List Bool) (labels : List String) : List String :=
  (mask.zip labels).filterMap (fun p => if p.1 then some p.2 else none)

/-! ### Unique mesh file naming (src/export.py lines 153–166 and 261–264) -/

/-- Model of Python `str.lower` (character-wise ASCII lowering). -/
def pyLower (s : String) : String :=
  String.mk (s.data.map Char.toLower)

/-- The `while candidate.lower() in used_names` loop of
`OBJECT_OT_export_ksa_metadata.execute`, with fuel: candidate `safe`,
then `safe_1`, `safe_2`, ….  Fuel `used.length + 1` always suffices since
consecutive candidates are pairwise distinct. -/
def pickCandidateAux (used : List String) (safe : String) : ℕ → String → ℕ → String
  | 0, cand, _ => cand
  | f + 1, cand, i =>
    if pyLower cand ∈ used then
      pickCandidateAux used safe f (safe ++ "_" ++ toString i) (i + 1)
    else cand

/-- First collision-free candidate (`candidate` after the while loop). -/
def pickCandidate (used : List String) (safe : String) : String :=
  pickCandidateAux used safe (used.length + 1) safe 1

/-- The mesh-naming loop of `OBJECT_OT_export_ksa_metadata.execute`
(src/export.py lines 153–166) followed by the `MeshFile` element
construction (lines 261–264).  For each object name, in order, it yields
`(mesh_file_name, mesh_id, element Id)` where `mesh_file_name` is
`candidate + ".glb"`, `mesh_id` is the `f"{candidate}MeshFile"` variable
the loop computes, and the element Id is the `obj.name + "MeshFile"`
actually written to the `MeshFile` element.  `used` is the running
`used_names` set of lowercased candidates. -/
def meshExportInfoAux : List String → List String → List (String × String × String)
  | [], _ => []
  | n :: ns, used =>
    let safe0 := sanitize_filename n
    let safe := if safe0 = "" then "mesh" else safe0
    let cand := pickCandidate used safe
    (cand ++ ".glb", cand ++ "MeshFile", n ++ "MeshFile")
      :: meshExportInfoAux ns (used ++ [pyLower cand])

/-- Mesh export info for a list of mesh object names (`used_names` starts
empty). -/
def meshExportInfo (names : List String) : List (String × String × String) :=
  meshExportInfoAux names []

/-! ### Legacy metadata model (src/utils.py lines 72–153)

`xml.etree.ElementTree` elements are modelled by `XNode` (tag, text,
children — the only parts `_element_to_dict` reads).  Python values that
appear in the produced record dictionaries are modelled by `PyScalar` and
`PyVal`; a raised exception is an `Option.none` result.  The standard
library parsers `float`, `int` and `json.loads` and the host `str`
conversion are parameters. -/

/-- One `xml.etree.ElementTree` element: tag, text, children. -/
inductive XNode where
  | mk (tag : String) (text : Option String) (children : List XNode)

/-- The `tag` field of an element. -/
def XNode.tag : XNode → String
  | .mk t _ _ => t

/-- The `text` field of an element. -/
def XNode.text : XNode → Option String
  | .mk _ t _ => t

/-- The child list of an element. -/
def XNode.children : XNode → List XNode
  | .mk _ _ cs => cs

/-- A scalar Python value as produced by `_element_to_dict`. -/
inductive PyScalar where
  | pynone
  | pybool (b : Bool)
  | pyint (n : ℤ)
  | pyfloat (q : ℚ)
  | pystr (s : String)
deriving DecidableEq

/-- A record value of `_element_to_dict`: a scalar or a flat list. -/
inductive PyVal where
  | scalar (v : PyScalar)
  | pylist (vs : List PyScalar)
deriving DecidableEq

/-- The `try: float(t) if '.' in t else int(t)` step shared by both
inference orders, with the library parsers as parameters (`none` =
exception raised). -/
def pyNumParse (pf : String → Option ℚ) (pint : String → Option ℤ)
    (s : String) : Option PyScalar :=
  if s.data.contains '.' then (pf s).map .pyfloat else (pint s).map .pyint

/-- Item inference of the generic-list branch of `_element_to_dict`
(src/utils.py lines 99–113): numeric first, boolean / string on failure. -/
def inferGenericItem (pf : String → Option ℚ) (pint : String → Option ℤ) :
    Option String → PyScalar
  | none => .pynone
  | some s =>
    match pyNumParse pf pint s with
    | some v => v
    | none =>
      if pyLower s = "true" then .pybool true
      else if pyLower s = "false" then .pybool false
      else .pystr s

/-- Leaf inference of `_element_to_dict` (src/utils.py lines 115–129):
boolean first, then numeric, then string; missing text stays `None`. -/
def inferLeaf (pf : String → Option ℚ) (pint : String → Option ℤ) :
    Option String → PyScalar
  | none => .pynone
  | some s =>
    if pyLower s = "true" then .pybool true
    else if pyLower s = "false" then .pybool false
    else
      match pyNumParse pf pint s with
      | some v => v
      | none => .pystr s

/-- Python `d[k] = v` on an insertion-ordered dictionary: update in place
when the key exists, append otherwise. -/
def dictInsert (d : List (String × PyVal)) (k : String) (v : PyVal) :
    List (String × PyVal) :=
  if d.any (fun p => p.1 == k) then
    d.map (fun p => if p.1 == k then (k, v) else p)
  else d ++ [(k, v)]

/-- Per-child conversion of `_element_to_dict` (src/utils.py lines 88–129):
a child with sub-children whose tag set is a subset of `{r,g,b}` or of
`{x,y,z}` becomes a float list (`none` when a `float(t)` call raises,
i.e. a text is missing or unparseable), any other child with sub-children
becomes a generic list, and a leaf child gets single-value inference. -/
def childValue (pf : String → Option ℚ) (pint : String → Option ℤ)
    (c : XNode) : Option PyVal :=
  match c.children with
  | [] => some (.scalar (inferLeaf pf pint c.text))
  | cs =>
    let tags := cs.map XNode.tag
    let texts := cs.map XNode.text
    if tags.all (fun t => ["r", "g", "b"].contains t)
        || tags.all (fun t => ["x", "y", "z"].contains t) then
      (texts.mapM (fun t? => Option.bind t? pf)).map
        (fun qs => PyVal.pylist (qs.map PyScalar.pyfloat))
    else some (.pylist (texts.map (inferGenericItem pf pint)))

/-- The `for child in elem` loop of `_element_to_dict`, abstracted over the
per-child conversion (an exception aborts the whole conversion). -/
def buildDict (cv : XNode → Option PyVal) (e : XNode) :
    Option (List (String × PyVal)) :=
  e.children.foldlM (fun d c => (cv c).map (fun v => dictInsert d c.tag v)) []

/-- `_element_to_dict` from src/utils.py (lines 85–130). -/
def elementToDict (pf : String → Option ℚ) (pint : String → Option ℤ)
    (e : XNode) : Option (List (String × PyVal)) :=
  buildDict (childValue pf pint) e

/-- Model of Python `str.strip()`: drop whitespace from both ends. -/
def pyStrip (s : String) : String :=
  String.mk (((s.data.dropWhile Char.isWhitespace).reverse.dropWhile
    Char.isWhitespace).reverse)

/-- Python `s.startswith("<")`. -/
def startsWithLt (s : String) : Bool :=
  match s.data with
  | c :: _ => c == '<'
  | [] => false

/-- Result of `parse_meta_string`: a flattened thruster record, a list of
records, or a JSON value (of the abstract JSON result type `J`). -/
inductive MetaResult (J : Type) where
  | record (d : List (String × PyVal))
  | records (ds : List (List (String × PyVal)))
  | jsonVal (j : J)

/-- `parse_meta_string` from src/utils.py (lines 133–153), with the
external parsers as parameters: `xp` models `ET.fromstring` (`none` =
parse error raised), `jp` models `json.loads`.  All exception paths
degrade to `none`; the function is total by construction. -/
def parse_meta_string {J : Type} (xp : String → Option XNode)
    (jp : String → Option J) (pf : String → Option ℚ)
    (pint : String → Option ℤ) (s : String) : Option (MetaResult J) :=
  if s = "" then none
  else
    let t := pyStrip s
    let xmlRes : Option (MetaResult J) :=
      if startsWithLt t then
        match xp t with
        | some root =>
          if root.tag = "thruster" then (elementToDict pf pint root).map .record
          else if root.tag = "thrusters" then
            (root.children.mapM (elementToDict pf pint)).map .records
          else none
        | none => none
      else none
    match xmlRes with
    | some r => some r
    | none => (jp t).map .jsonVal

/-! ### Spec-side element-to-record conversion (for comparison with
`elementToDict`).  `specChildValueExact` follows the claim wording: a
vector child requires its sub-tag set to be *exactly* `{r,g,b}` or
*exactly* `{x,y,z}`, and generic-list items use the claimed
boolean-first inference (which is `inferLeaf`).  `specChildValueAmended`
replaces *exactly* by *subset of*, which is what the code tests. -/

/-- Set equality of tag lists (both directions of containment). -/
def sameTagSet (tags target : List String) : Bool :=
  tags.all (fun t => target.contains t) && target.all (fun t => tags.contains t)

/-- Per-child conversion as the claim words it. -/
def specChildValueExact (pf : String → Option ℚ) (pint : String → Option ℤ)
    (c : XNode) : Option PyVal :=
  match c.children with
  | [] => some (.scalar (inferLeaf pf pint c.text))
  | cs =>
    let tags := cs.map XNode.tag
    let texts := cs.map XNode.text
    if sameTagSet tags ["r", "g", "b"] || sameTagSet tags ["x", "y", "z"] then
      (texts.mapM (fun t? => Option.bind t? pf)).map
        (fun qs => PyVal.pylist (qs.map PyScalar.pyfloat))
    else some (.pylist (texts.map (inferLeaf pf pint)))

/-- Element-to-record conversion as the claim words it. -/
def specElementToDictExact (pf : String → Option ℚ) (pint : String → Option ℤ)
    (e : XNode) : Option (List (String × PyVal)) :=
  buildDict (specChildValueExact pf pint) e

/-- Per-child conversion with the claim amended to subset routing. -/
def specChildValueAmended (pf : String → Option ℚ) (pint : String → Option ℤ)
    (c : XNode) : Option PyVal :=
  match c.children with
  | [] => some (.scalar (inferLeaf pf pint c.text))
  | cs =>
    let tags := cs.map XNode.tag
    let texts := cs.map XNode.text
    if tags.all (fun t => ["r", "g", "b"].contains t)
        || tags.all (fun t => ["x", "y", "z"].contains t) then
      (texts.mapM (fun t? => Option.bind t? pf)).map
        (fun qs => PyVal.pylist (qs.map PyScalar.pyfloat))
    else some (.pylist (texts.map (inferLeaf pf pint)))

/-- Element-to-record conversion of the amended claim. -/
def specElementToDictAmended (pf : String → Option ℚ)
    (pint : String → Option ℤ) (e : XNode) :
    Option (List (String × PyVal)) :=
  buildDict (specChildValueAmended pf pint) e

/-- Concrete stand-in for Python `float` that recognises only `"7"`
(enough for the counterexample input; `float("7") = 7.0`). -/
def floatSeven : String → Option ℚ := fun s => if s = "7" then some 7 else none

/-- Concrete stand-in for Python `int` that recognises only `"7"`. -/
def intSeven : String → Option ℤ := fun s => if s = "7" then some 7 else none

/-- Counterexample input for the routing question: a `thruster` root with
one child `v` whose single sub-child is `<x>7</x>`.  Its sub-tag set
`{x}` is a *subset* of `{x,y,z}` but not *exactly* `{x,y,z}`. -/
def exampleSingleX : XNode :=
  XNode.mk "thruster" none [XNode.mk "v" none [XNode.mk "x" (some "7") []]]

/-! ### Legacy metadata writer (src/utils.py lines 72–82) -/

/-- Element tree built by `meta_dict_to_xml_str`: root tag `metadata`; a
list value becomes a child with repeated `item` grandchildren, any other
value a leaf child with `str(v)` text.  `strfn` models the host `str`
conversion. -/
def meta_dict_to_xml_tree (strfn : PyScalar → String)
    (d : List (String × PyVal)) : XNode :=
  XNode.mk "metadata" none (d.map (fun p =>
    match p.2 with
    | .pylist vs =>
      XNode.mk p.1 none (vs.map (fun v => XNode.mk "item" (some (strfn v)) []))
    | .scalar v => XNode.mk p.1 (some (strfn v)) []))

/-- Serialization of one `item` grandchild. -/
def metaItemToString (strfn : PyScalar → String) (v : PyScalar) : String :=
  "<item>" ++ strfn v ++ "</item>"

/-- Serialization of one top-level child of the `metadata` root. -/
def metaChildToString (strfn : PyScalar → String) (p : String × PyVal) :
    String :=
  match p.2 with
  | .pylist vs =>
    "<" ++ p.1 ++ ">" ++ String.join (vs.map (metaItemToString strfn))
      ++ "</" ++ p.1 ++ ">"
  | .scalar v => "<" ++ p.1 ++ ">" ++ strfn v ++ "</" ++ p.1 ++ ">"

/-- The string `meta_dict_to_xml_str` returns:
`ET.tostring(root, encoding="utf-8").decode("utf-8")` prepends the XML
declaration line and serializes the `metadata` tree. -/
def meta_dict_to_xml_str (strfn : PyScalar → String)
    (d : List (String × PyVal)) : String :=
  "<?xml version=\x271.0\x27 encoding=\x27utf-8\x27?>\n<metadata>"
    ++ String.join (d.map (metaChildToString strfn)) ++ "</metadata>"

/-! ### Concrete instantiations used by witnesses -/

/-- A float parser that always fails. -/
def pfNone : String → Option ℚ := fun _ => none

/-- An int parser that always fails. -/
def piNone : String → Option ℤ := fun _ => none

/-- An XML parser that always fails. -/
def xpNone : String → Option XNode := fun _ => none

/-- A JSON parser (with JSON result type `ℕ`) that always fails. -/
def jpNone : String → Option ℕ := fun _ => none

/-- A host `str` conversion mapping every value to `"1"`. -/
def strfnOne : PyScalar → String := fun _ => "1"

/-- A concrete metadata dictionary, as baked for a thruster object. -/
def exampleMetaDict : List (String × PyVal) :=
  [("name", PyVal.scalar (PyScalar.pystr "T"))]

/-- A faithful XML parser on the writer output for `exampleMetaDict`: it
returns exactly the element tree the writer serialized. -/
def xpMeta : String → Option XNode := fun t =>
  if t = meta_dict_to_xml_str strfnOne exampleMetaDict then
    some (meta_dict_to_xml_tree strfnOne exampleMetaDict)
  else none

/-! ## Sanitizer lemmas -/

lemma head?_dropWhile_false {p : Char → Bool} {l : List Char} {c : Char}
    (h : (l.dropWhile p).head? = some c) : p c = false := by
  induction l with
  | nil => simp [List.dropWhile] at h
  | cons a t ih =>
    rw [List.dropWhile] at h
    by_cases hp : p a
    · rw [hp] at h; simp at h; exact ih h
    · simp [hp] at h; subst h; simpa using hp

lemma head?_take_pos {l : List Char} {n : ℕ} (hn : n ≠ 0) :
    (l.take n).head? = l.head? := by
  cases l with
  | nil => simp
  | cons a t =>
    cases n with
    | zero => exact absurd rfl hn
    | succ m => simp

lemma sanitizeBase_ne_nil (cs : List Char) : sanitizeBase cs ≠ [] := by
  unfold sanitizeBase
  split <;> simp_all

lemma sanitizeChars_ne_nil (cs : List Char) : sanitizeChars cs ≠ [] := by
  unfold sanitizeChars
  intro h
  have hlen := congrArg List.length h
  rw [List.length_take] at hlen
  simp only [List.length_nil] at hlen
  rcases Nat.min_eq_zero_iff.mp hlen with h128 | hbase
  · omega
  · exact sanitizeBase_ne_nil cs (List.length_eq_zero.mp hbase)

lemma sanitizeChars_length_le (cs : List Char) :
    (sanitizeChars cs).length ≤ 128 := by
  unfold sanitizeChars
  simp [Nat.min_le_left]

lemma sanitizeChars_all (cs : List Char) :
    (sanitizeChars cs).all isAllowedChar = true := by
  rw [List.all_eq_true]
  intro c hc
  have hc2 := (List.take_sublist _ _).subset hc
  unfold sanitizeBase at hc2
  by_cases hstr : sanitizeStrip cs = []
  · rw [if_pos hstr] at hc2
    exact (show ∀ x ∈ "unnamed".toList, isAllowedChar x = true by decide) c hc2
  · rw [if_neg hstr] at hc2
    have hc3 := (List.dropWhile_sublist _).subset hc2
    obtain ⟨a, _, ha⟩ := List.mem_map.mp hc3
    subst ha
    by_cases h : isAllowedChar a
    · simp [h]
    · rw [if_neg h]; decide

lemma sanitizeChars_head (cs : List Char) :
    (sanitizeChars cs).head? ≠ some '.' := by
  unfold sanitizeChars
  rw [head?_take_pos (by norm_num)]
  unfold sanitizeBase
  split
  · decide
  · intro h
    have := head?_dropWhile_false h
    simp at this

set_option maxRecDepth 4000 in
/-- C2: for every input string, `sanitize_filename` returns a non-empty
string of at most 128 characters drawn from `[A-Za-z0-9._-]` that does not
start with a dot; empty (or `None`) input yields `unnamed`, characters
outside the whitelist become underscores, leading dots are stripped with
an `unnamed` fallback, and the result is truncated to 128 characters; the
four concrete examples of the spec hold. -/
theorem claim_C2 (s : String) :
    sanitize_filename s ≠ ""
    ∧ (sanitize_filename s).length ≤ 128
    ∧ (sanitize_filename s).data.all isAllowedChar = true
    ∧ (sanitize_filename s).data.head? ≠ some '.'
    ∧ sanitize_filename "" = "unnamed"
    ∧ sanitize_filename "..hidden" = "hidden"
    ∧ sanitize_filename "a/b\\c" = "a_b_c"
    ∧ (sanitize_filename (String.mk (List.replicate 200 'x'))).length = 128 := by
  refine ⟨?_, ?_, ?_, ?_, by decide, by decide, by decide, by decide⟩ <;>
    by_cases hs : s = ""
  · subst hs; decide
  · simp only [sanitize_filename, if_neg hs]
    intro h
    exact sanitizeChars_ne_nil s.toList (by simpa using congrArg String.data h)
  · subst hs; decide
  · simp only [sanitize_filename, if_neg hs]
    exact sanitizeChars_length_le s.toList
  · subst hs; decide
  · simp only [sanitize_filename, if_neg hs]
    exact sanitizeChars_all s.toList
  · subst hs; decide
  · simp only [sanitize_filename, if_neg hs]
    exact sanitizeChars_head s.toList

/-- Witness for C2 at the concrete input `"a b"`. -/
theorem claim_C2_witness :
    sanitize_filename "a b" ≠ "" ∧ (sanitize_filename "a b").length ≤ 128 :=
  ⟨(claim_C2 "a b").1, (claim_C2 "a b").2.1⟩

/-- C1: for every rotation triple the exhaust direction before rounding is
`(cos ry * cos rz, cos ry * sin rz, sin ry)` — independent of `rx` — in
both the thruster and the engine serializer; for `ry = rz = 0` and any
`rx` the direction is `(1,0,0)`; for an absent (`none`) or falsy
(`some none`) rotation the default `(1,0,0)` is used. -/
theorem claim_C1 (rx ry rz r : ℝ) :
    thruster_exhaust_direction (some (some (rx, ry, rz)))
        = (Real.cos ry * Real.cos rz, Real.cos ry * Real.sin rz, Real.sin ry)
    ∧ engine_exhaust_direction (some (some (rx, ry, rz)))
        = (Real.cos ry * Real.cos rz, Real.cos ry * Real.sin rz, Real.sin ry)
    ∧ thruster_exhaust_direction (some (some (r, 0, 0))) = (1, 0, 0)
    ∧ engine_exhaust_direction (some (some (r, 0, 0))) = (1, 0, 0)
    ∧ thruster_exhaust_direction none = (1, 0, 0)
    ∧ engine_exhaust_direction none = (1, 0, 0)
    ∧ thruster_exhaust_direction (some none) = (1, 0, 0)
    ∧ engine_exhaust_direction (some none) = (1, 0, 0) := by
  refine ⟨rfl, rfl, ?_, ?_, ?_, ?_, rfl, rfl⟩ <;>
    simp [thruster_exhaust_direction, engine_exhaust_direction]

/-- Witness for C1 at the concrete rotation `(2, 0, 0)`. -/
theorem claim_C1_witness :
    thruster_exhaust_direction (some (some ((2 : ℝ), 0, 0))) = (1, 0, 0)
    ∧ engine_exhaust_direction (some (some ((2 : ℝ), 0, 0))) = (1, 0, 0) :=
  ⟨(claim_C1 0 0 0 2).2.2.1, (claim_C1 0 0 0 2).2.2.2.1⟩

/-- C3: combining a world location with a local fx offset yields the
elementwise sum when both are present; when exactly one key is absent the
result equals the other operand (the absent one defaults to the zero
vector); and the serialized `Location` value is the rounding of the
combined sum — sum first, round once. -/
theorem claim_C3 (lx ly lz fxv fyv fzv : ℝ)
    (loc? fx? : Option (Option (ℝ × ℝ × ℝ))) (p : ℕ) :
    combine_location (some (some (lx, ly, lz))) (some (some (fxv, fyv, fzv)))
        = some (lx + fxv, ly + fyv, lz + fzv)
    ∧ combine_location none (some (some (fxv, fyv, fzv))) = some (fxv, fyv, fzv)
    ∧ combine_location (some (some (lx, ly, lz))) none = some (lx, ly, lz)
    ∧ thruster_location_element loc? fx? p
        = (combine_location loc? fx?).map (roundV3 p) := by
  refine ⟨rfl, ?_, ?_, rfl⟩ <;> simp [combine_location]

/-- Witness for C3 at the concrete operands `(1,2,3)` and `(4,5,6)`. -/
theorem claim_C3_witness :
    combine_location (some (some ((1 : ℝ), 2, 3))) (some (some (4, 5, 6)))
      = some (1 + 4, 2 + 5, 3 + 6) :=
  (claim_C3 1 2 3 4 5 6 none none 0).1

/-- C5: the serialized Engine `Thrust N` value is the thrust in
kilonewtons times 1000; in particular `thrust_kn = 650` serializes as
`650000`; an absent key uses the default `650.0` and serializes as
`650 * 1000`. -/
theorem claim_C5 (kn : ℝ) :
    engine_thrust_n (some kn) = kn * 1000
    ∧ engine_thrust_n (some 650) = 650000
    ∧ engine_thrust_n none = 650 * 1000 := by
  refine ⟨rfl, ?_, rfl⟩
  norm_num [engine_thrust_n]

/-- Witness for C5 at the concrete thrust `650`. -/
theorem claim_C5_witness : engine_thrust_n (some 650) = 650000 :=
  (claim_C5 650).2.1

/-! ## ControlMap lemmas -/

lemma collectAux_eq (labels : List String) (mask : List Bool) :
    ∀ i, collectAux labels mask i
      = ((mask.zip (labels.drop i)).filterMap
          fun p => if p.1 then some p.2 else none) := by
  induction mask with
  | nil => intro i; simp [collectAux]
  | cons b bs ih =>
    intro i
    rw [collectAux, ih (i + 1)]
    cases hd : labels.drop i with
    | nil =>
      have hnone : labels[i]? = none := by
        rw [← List.head?_drop, hd]; rfl
      have hnext : labels.drop (i + 1) = [] := by
        rw [← List.tail_drop, hd]; rfl
      rw [hnext, hnone]
      simp
    | cons x xs =>
      have hsome : labels[i]? = some x := by
        rw [← List.head?_drop, hd]; rfl
      have hnext : labels.drop (i + 1) = xs := by
        rw [← List.tail_drop, hd]; rfl
      rw [hnext, hsome]
      cases b <;> simp

lemma zip_eq_zip_take (A : List Bool) (B : List String) :
    A.zip B = (A.take B.length).zip B := by
  induction A generalizing B with
  | nil => simp
  | cons a as ih =>
    cases B with
    | nil => simp
    | cons b bs => simpa using ih bs

lemma controlMapParts_eq (tm rm : List Bool) :
    controlMapParts tm rm
      = trueLabels tm transLabels ++ trueLabels rm rotLabels := by
  unfold controlMapParts trueLabels
  rw [collectAux_eq, collectAux_eq]
  simp

/-- C4: for masks of at most 6 entries the ControlMap `CSV` value is the
comma-join of the fixed labels of the true entries, translation labels
first and then rotation labels, in positional order, and the empty string
when no entry is true. -/
theorem claim_C4 (tm rm : List Bool)
    (h1 : tm.length ≤ 6) (h2 : rm.length ≤ 6) :
    controlMapCSV tm rm
      = String.intercalate ","
          (trueLabels tm transLabels ++ trueLabels rm rotLabels)
    ∧ (tm.all (fun b => b == false) → rm.all (fun b => b == false) →
        controlMapCSV tm rm = "") := by
  constructor
  · unfold controlMapCSV
    rw [controlMapParts_eq]
  · intro ht hr
    unfold controlMapCSV
    rw [controlMapParts_eq]
    have hemp : ∀ (m : List Bool) (ls : List String),
        m.all (fun b => b == false) → trueLabels m ls = [] := by
      intro m ls hm
      unfold trueLabels
      rw [List.filterMap_eq_nil_iff]
      intro p hp
      have := List.all_eq_true.mp hm p.1 (List.of_mem_zip hp).1
      simp at this
      simp [this]
    rw [hemp tm transLabels ht, hemp rm rotLabels hr]
    rfl

/-- Witness for C4 at the concrete masks of the spec example, giving
`CSV = "TranslateForward,RollLeft"`. -/
theorem claim_C4_witness :
    ([true, false, false, false, false, false] : List Bool).length ≤ 6
    ∧ ([false, false, true, false, false, false] : List Bool).length ≤ 6
    ∧ controlMapCSV [true, false, false, false, false, false]
        [false, false, true, false, false, false]
        = "TranslateForward,RollLeft" := by
  refine ⟨by decide, by decide, ?_⟩
  rw [(claim_C4 _ _ (by decide) (by decide)).1]
  decide

/-- C10: ControlMap serialization is total for masks of every length;
entries beyond index 5 are silently skipped (the output equals the output
on the first 6 entries), and every emitted part is one of the 12 fixed
labels. -/
theorem claim_C10 (tm rm : List Bool) :
    controlMapCSV tm rm = controlMapCSV (tm.take 6) (rm.take 6)
    ∧ (controlMapParts tm rm).all
        (fun l => (transLabels ++ rotLabels).contains l) = true := by
  constructor
  · unfold controlMapCSV
    rw [controlMapParts_eq, controlMapParts_eq]
    unfold trueLabels
    rw [zip_eq_zip_take tm transLabels, zip_eq_zip_take rm rotLabels]
    rfl
  · rw [List.all_eq_true]
    intro l hl
    rw [controlMapParts_eq] at hl
    have hmem : l ∈ transLabels ++ rotLabels := by
      rcases List.mem_append.mp hl with h | h <;>
        obtain ⟨p, hp, hpe⟩ := List.mem_filterMap.mp h
      · have : p.2 ∈ transLabels := (List.of_mem_zip hp).2
        rcases p.1 <;> simp_all
      · have : p.2 ∈ rotLabels := (List.of_mem_zip hp).2
        rcases p.1 <;> simp_all
    simpa [List.contains] using hmem

/-- Witness for C10 at length-9 masks with all entries true. -/
theorem claim_C10_witness :
    controlMapCSV (List.replicate 9 true) (List.replicate 9 true)
      = controlMapCSV ((List.replicate 9 true).take 6)
          ((List.replicate 9 true).take 6) :=
  (claim_C10 (List.replicate 9 true) (List.replicate 9 true)).1

/-- C8 (failing input): with mesh objects named `Hull` and `.Hull` — both
sanitizing to `Hull` — the file names are `Hull.glb` and `Hull_1.glb` as
the claim states, and the loop computes `mesh_id = Hull_1MeshFile` for the
second one, but the `MeshFile` element actually written uses the raw
object name, `Id = .HullMeshFile`, not `Hull_1MeshFile`. -/
theorem claim_C8 :
    meshExportInfo ["Hull", ".Hull"]
      = [("Hull.glb", "HullMeshFile", "HullMeshFile"),
         ("Hull_1.glb", "Hull_1MeshFile", ".HullMeshFile")]
    ∧ sanitize_filename "Hull" = "Hull"
    ∧ sanitize_filename ".Hull" = "Hull"
    ∧ (".HullMeshFile" : String) ≠ "Hull_1MeshFile" := by decide

/-- C6: the legacy metadata parser is total (it is a Lean function) and
implements the documented dispatch: empty input gives `none`;
whitespace-only input gives `none` (its JSON attempt on the stripped empty
string fails); a `<`-prefixed input whose XML parse yields root tag
`thruster` gives one flattened record and root tag `thrusters` a list of
records; a non-`<` input or a failed XML parse falls back to the JSON
decode, `none` when that fails too; the two concrete spec examples hold
for any JSON parser behaving like `json.loads` on them. -/
theorem claim_C6 {J : Type} (xp : String → Option XNode) (jp : String → Option J)
    (pf : String → Option ℚ) (pint : String → Option ℤ) (s : String)
    (root : XNode) (rd : List (String × PyVal))
    (rds : List (List (String × PyVal))) (j : J) :
    parse_meta_string xp jp pf pint "" = none
    ∧ (pyStrip s = "" → jp "" = none →
        parse_meta_string xp jp pf pint s = none)
    ∧ (s ≠ "" → startsWithLt (pyStrip s) = true → xp (pyStrip s) = some root →
        root.tag = "thruster" → elementToDict pf pint root = some rd →
        parse_meta_string xp jp pf pint s = some (MetaResult.record rd))
    ∧ (s ≠ "" → startsWithLt (pyStrip s) = true → xp (pyStrip s) = some root →
        root.tag = "thrusters" →
        root.children.mapM (elementToDict pf pint) = some rds →
        parse_meta_string xp jp pf pint s = some (MetaResult.records rds))
    ∧ (s ≠ "" → startsWithLt (pyStrip s) = false →
        parse_meta_string xp jp pf pint s
          = (jp (pyStrip s)).map MetaResult.jsonVal)
    ∧ (s ≠ "" → startsWithLt (pyStrip s) = true → xp (pyStrip s) = none →
        parse_meta_string xp jp pf pint s
          = (jp (pyStrip s)).map MetaResult.jsonVal)
    ∧ (jp "not xml or json" = none →
        parse_meta_string xp jp pf pint "not xml or json" = none)
    ∧ (jp "\x7b\"a\":1\x7d" = some j →
        parse_meta_string xp jp pf pint "\x7b\"a\":1\x7d"
          = some (MetaResult.jsonVal j)) := by
  refine ⟨rfl, ?_, ?_, ?_, ?_, ?_, ?_, ?_⟩
  · intro hstrip hjp
    by_cases hs : s = ""
    · rw [hs]; rfl
    · simp only [parse_meta_string, if_neg hs, hstrip]
      simp [startsWithLt, hjp]
  · intro hs hstart hxp htag helem
    simp only [parse_meta_string, if_neg hs, hstart, if_true, hxp, htag,
      if_pos, helem]
    rfl
  · intro hs hstart hxp htag helem
    simp only [parse_meta_string, if_neg hs, hstart, if_true, hxp, htag, helem]
    rw [if_neg (by decide : ¬("thrusters" : String) = "thruster")]
    rfl
  · intro hs hstart
    simp only [parse_meta_string, if_neg hs, hstart]
    rfl
  · intro hs hstart hxp
    simp only [parse_meta_string, if_neg hs, hstart, hxp]
    rfl
  · intro hjp
    have hstrip : pyStrip "not xml or json" = "not xml or json" := by decide
    have hstart : startsWithLt "not xml or json" = false := by decide
    simp only [parse_meta_string, hstrip, hstart, hjp]
    rfl
  · intro hjp
    have hstrip : pyStrip "\x7b\"a\":1\x7d" = "\x7b\"a\":1\x7d" := by decide
    have hstart : startsWithLt "\x7b\"a\":1\x7d" = false := by decide
    simp only [parse_meta_string, hstrip, hstart, hjp]
    rfl

/-- Witness for C6 with all-failing parsers at the spec example input
`"not xml or json"`. -/
theorem claim_C6_witness :
    jpNone "not xml or json" = none
    ∧ parse_meta_string xpNone jpNone pfNone piNone "not xml or json"
      = none :=
  ⟨rfl, (claim_C6 xpNone jpNone pfNone piNone "not xml or json"
    (XNode.mk "" none []) [] [] 0).2.2.2.2.2.2.1 rfl⟩

/-- C7 (counterexample): on a child whose single sub-child is `<x>7</x>`
the code converts to a float list (sub-tag set `{x}` passes the *subset*
test of `{x,y,z}`), while the claim as stated — requiring the sub-tag set
to be *exactly* `{x,y,z}` — would route it to the generic list, where
`7` is inferred as an int; the two conversions disagree. -/
theorem claim_C7_counterexample :
    elementToDict floatSeven intSeven exampleSingleX
      = some [("v", PyVal.pylist [PyScalar.pyfloat 7])]
    ∧ specElementToDictExact floatSeven intSeven exampleSingleX
      = some [("v", PyVal.pylist [PyScalar.pyint 7])]
    ∧ elementToDict floatSeven intSeven exampleSingleX
      ≠ specElementToDictExact floatSeven intSeven exampleSingleX := by decide

lemma inferGenericItem_eq_inferLeaf (pf : String → Option ℚ)
    (pint : String → Option ℤ)
    (hnum : ∀ t, pyLower t = "true" ∨ pyLower t = "false" →
      pf t = none ∧ pint t = none) (t? : Option String) :
    inferGenericItem pf pint t? = inferLeaf pf pint t? := by
  cases t? with
  | none => rfl
  | some st =>
    simp only [inferGenericItem, inferLeaf]
    by_cases hb : pyLower st = "true"
    · obtain ⟨hpf, hpi⟩ := hnum st (Or.inl hb)
      simp [pyNumParse, hpf, hpi, hb]
    · by_cases hb2 : pyLower st = "false"
      · obtain ⟨hpf, hpi⟩ := hnum st (Or.inr hb2)
        simp [pyNumParse, hpf, hpi, hb, hb2]
      · cases hc : pyNumParse pf pint st with
        | some v => simp [hc, hb, hb2]
        | none => simp [hc, hb, hb2]

/-- C7 (amended): with *subset* in place of *exactly* the claim holds:
element-to-record conversion routes a child with sub-children to a float
list if its sub-tag set is a subset of `{r,g,b}` or of `{x,y,z}` and
otherwise to a generic list with independent per-item inference in the
claimed boolean-first order, and leaves get the same single-value
inference with `None` preserved; the hypothesis states that the strings
`true`/`false` (case-insensitively) never parse as Python numbers. -/
theorem claim_C7 (pf : String → Option ℚ) (pint : String → Option ℤ)
    (hnum : ∀ t, pyLower t = "true" ∨ pyLower t = "false" →
      pf t = none ∧ pint t = none) (e : XNode) :
    elementToDict pf pint e = specElementToDictAmended pf pint e := by
  unfold elementToDict specElementToDictAmended
  have hcv : ∀ c, childValue pf pint c = specChildValueAmended pf pint c := by
    intro c
    rcases c with ⟨tag, text, cs⟩
    cases cs with
    | nil => rfl
    | cons c0 cs0 =>
      simp only [childValue, specChildValueAmended, XNode.children]
      split
      · rfl
      · simp [inferGenericItem_eq_inferLeaf pf pint hnum]
  exact congrArg (fun cv => buildDict cv e) (funext hcv)

/-- Witness for C7 with all-failing number parsers at the concrete
element `exampleSingleX`. -/
theorem claim_C7_witness :
    elementToDict pfNone piNone exampleSingleX
      = specElementToDictAmended pfNone piNone exampleSingleX :=
  claim_C7 pfNone piNone (fun _ _ => ⟨rfl, rfl⟩) exampleSingleX

/-! ## Legacy blob round-trip lemmas -/

lemma string_data_inj {s t : String} (h : s.data = t.data) : s = t := by
  cases s; cases t; cases h; rfl

lemma dropWhile_cons_false {p : Char → Bool} {a : Char} {l : List Char}
    (h : p a = false) : List.dropWhile p (a :: l) = a :: l := by
  simp [List.dropWhile, h]

lemma pyStrip_eq_self {s : String} {c1 c2 : Char} {mid : List Char}
    (hdata : s.data = c1 :: (mid ++ [c2]))
    (h1 : c1.isWhitespace = false) (h2 : c2.isWhitespace = false) :
    pyStrip s = s := by
  apply string_data_inj
  show (((s.data.dropWhile Char.isWhitespace).reverse.dropWhile
      Char.isWhitespace).reverse) = s.data
  rw [hdata, dropWhile_cons_false h1]
  have hrev : (c1 :: (mid ++ [c2])).reverse = c2 :: (mid.reverse ++ [c1]) := by
    simp
  rw [hrev, dropWhile_cons_false h2, ← hrev, List.reverse_reverse]

lemma meta_str_shape (strfn : PyScalar → String) (d : List (String × PyVal)) :
    ∃ mid, (meta_dict_to_xml_str strfn d).data = '<' :: (mid ++ ['>']) := by
  refine ⟨"?xml version=\x271.0\x27 encoding=\x27utf-8\x27?>\n<metadata>".data
    ++ (String.join (d.map (metaChildToString strfn))).data
    ++ "</metadata".data, ?_⟩
  unfold meta_dict_to_xml_str
  rw [String.data_append, String.data_append]
  have h1 : ("<?xml version=\x271.0\x27 encoding=\x27utf-8\x27?>\n<metadata>" : String).data
      = '<' :: ("?xml version=\x271.0\x27 encoding=\x27utf-8\x27?>\n<metadata>" : String).data := by
    decide
  have h2 : ("</metadata>" : String).data
      = ("</metadata" : String).data ++ ['>'] := by decide
  rw [h1, h2]
  simp

/-- C9: the round-trip fails for every metadata dictionary: the writer
roots its XML at tag `metadata`, which the parser handles in neither XML
branch, and the subsequent JSON attempt on XML text fails, so parsing the
written blob returns `none`, not a structured value.  The hypotheses say
the XML parser recovers exactly the written tree and the JSON parser
rejects the XML text, which is how `ET.fromstring` and `json.loads`
behave on the writer output. -/
theorem claim_C9 {J : Type} (xp : String → Option XNode) (jp : String → Option J)
    (pf : String → Option ℚ) (pint : String → Option ℤ)
    (strfn : PyScalar → String) (d : List (String × PyVal))
    (hxp : xp (meta_dict_to_xml_str strfn d)
      = some (meta_dict_to_xml_tree strfn d))
    (hjp : jp (meta_dict_to_xml_str strfn d) = none) :
    parse_meta_string xp jp pf pint (meta_dict_to_xml_str strfn d) = none := by
  obtain ⟨mid, hdata⟩ := meta_str_shape strfn d
  have hstrip : pyStrip (meta_dict_to_xml_str strfn d)
      = meta_dict_to_xml_str strfn d :=
    pyStrip_eq_self hdata (by decide) (by decide)
  have hne : meta_dict_to_xml_str strfn d ≠ "" := by
    intro h
    rw [h] at hdata
    exact absurd hdata (by simp)
  have hstart : startsWithLt (meta_dict_to_xml_str strfn d) = true := by
    unfold startsWithLt
    rw [hdata]
    rfl
  have htag : (meta_dict_to_xml_tree strfn d).tag = "metadata" := rfl
  simp only [parse_meta_string, if_neg hne, hstrip, hstart, if_true, hxp, htag]
  rw [if_neg (by decide : ¬("metadata" : String) = "thruster"),
    if_neg (by decide : ¬("metadata" : String) = "thrusters"), hjp]
  rfl

/-- Witness for C9 at the concrete dictionary `exampleMetaDict` with a
faithful XML parser and a failing JSON parser. -/
theorem claim_C9_witness :
    xpMeta (meta_dict_to_xml_str strfnOne exampleMetaDict)
      = some (meta_dict_to_xml_tree strfnOne exampleMetaDict)
    ∧ jpNone (meta_dict_to_xml_str strfnOne exampleMetaDict) = none
    ∧ parse_meta_string xpMeta jpNone pfNone piNone
        (meta_dict_to_xml_str strfnOne exampleMetaDict) = none :=
  ⟨by simp [xpMeta], rfl,
    claim_C9 xpMeta jpNone pfNone piNone strfnOne exampleMetaDict
      (by simp [xpMeta]) rfl⟩

end KittenExport
